import Mathlib

/-!
Verification of the G13_Linux on-device interaction layer.

Shallow embedding of:
  - `src/g13_linux/input/handler.py` (`InputHandler`): thumbstick dead-zone and
    direction priority, stick repeat timing, discrete-button edge detection,
    callback emission;
  - `src/g13_linux/lcd/canvas.py` (`Canvas`): pixel get/set, framebuffer
    serialization;
  - `src/g13_ops/hardware/lcd.py` (`G13LCD`): the hardware module's pixel packing;
  - `src/g13_linux/menu/screens/base_menu.py` (`MenuScreen`) and
    `src/g13_linux/menu/items.py` (`MenuItem`): menu navigation state machine.

Machine bytes are `Nat` values; `bytes` objects are `List Nat` (each cell an
8-bit value, as in a Python `bytes`/`bytearray`). Wall-clock time is modelled in
integer milliseconds, so the handler's float constants 0.4 s and 0.15 s become
400 and 150. Python exceptions raised by user callbacks are modelled with
`Except`, and a `try/except` block as a `match` on the result.
-/

/-- Modelled from the spec: the NavigationEvent tagged variant (`InputEvent`,
declared in `menu/screen.py` which is not under `src/`): stick directions,
stick press, and the named edge-triggered button presses used by the input
handler. -/
inductive InputEvent where
  | stickUp
  | stickDown
  | stickLeft
  | stickRight
  | stickPress
  | buttonBD
  | buttonLeft
  | buttonM1
  | buttonM2
  | buttonM3
  | buttonMR
  deriving DecidableEq, Repr

/-- The discrete buttons tracked by the input handler: the thumbstick click
(`_process_stick_button`) and the six navigation buttons of the
`button_map` dict in `_process_buttons`. -/
inductive ButtonName where
  | stick
  | bd
  | left
  | m1
  | m2
  | m3
  | mr
  deriving DecidableEq, Repr

/-- `InputHandler.STICK_CENTER`. -/
def STICK_CENTER : Nat := 128

/-- `InputHandler.STICK_THRESHOLD` (dead zone from center). -/
def STICK_THRESHOLD : Nat := 50

/-- `InputHandler.STICK_REPEAT_DELAY`, in milliseconds (0.4 s in the source). -/
def STICK_REPEAT_DELAY : Nat := 400

/-- `InputHandler.STICK_REPEAT_RATE`, in milliseconds (0.15 s in the source). -/
def STICK_REPEAT_RATE : Nat := 150

/-- The direction computation of `InputHandler._process_thumbstick`
(lines 124-138): the Y axis is tested first, and the X axis only when no Y
direction was produced. -/
def stickDirection (x y : Nat) : Option InputEvent :=
  if y < STICK_CENTER - STICK_THRESHOLD then
    some .stickUp
  else if y > STICK_CENTER + STICK_THRESHOLD then
    some .stickDown
  else if x < STICK_CENTER - STICK_THRESHOLD then
    some .stickLeft
  else if x > STICK_CENTER + STICK_THRESHOLD then
    some .stickRight
  else
    none


/-- The mutable state of `InputHandler` relevant to event production:
stick position, stick-click latch, repeat tracking, and the per-button
edge-detection dict (`_button_state`, a map with default `False`). -/
structure HandlerState where
  stickX : Nat
  stickY : Nat
  stickPressed : Bool
  repeatDirection : Option InputEvent
  repeatStartTime : Nat
  lastRepeatTime : Nat
  buttonState : ButtonName → Bool

/-- The state set up by `InputHandler.__init__`. -/
def initHandlerState : HandlerState :=
  { stickX := STICK_CENTER
    stickY := STICK_CENTER
    stickPressed := false
    repeatDirection := none
    repeatStartTime := 0
    lastRepeatTime := 0
    buttonState := fun _ => false }

/-- `InputHandler._process_thumbstick`: store the sample, compute the
direction, and on a direction change either emit the new direction and restart
the repeat timers, or (back to center) cancel repeating. `now` is the value
`time.time()` would return, in milliseconds. -/
def process_thumbstick (x y now : Nat) (st : HandlerState) :
    List InputEvent × HandlerState :=
  let st1 := { st with stickX := x, stickY := y }
  let direction := stickDirection x y
  if direction ≠ st.repeatDirection then
    match direction with
    | some d =>
        ([d], { st1 with repeatDirection := some d, repeatStartTime := now,
                         lastRepeatTime := now })
    | none => ([], { st1 with repeatDirection := none })
  else
    ([], st1)

/-- `InputHandler._check_stick_repeat`: no-op without a held direction or
before the initial delay; otherwise emit the held direction once the repeat
rate interval has elapsed since the last emission. -/
def check_stick_repeat (now : Nat) (st : HandlerState) :
    Option InputEvent × HandlerState :=
  match st.repeatDirection with
  | none => (none, st)
  | some d =>
      if now - st.repeatStartTime < STICK_REPEAT_DELAY then
        (none, st)
      else if now - st.lastRepeatTime ≥ STICK_REPEAT_RATE then
        (some d, { st with lastRepeatTime := now })
      else
        (none, st)

/-- `InputHandler._process_stick_button`: the STICK click is byte 7 bit 3;
emit `STICK_PRESS` on a rising edge only, and latch the current state. -/
def process_stick_button (data : List Nat) (st : HandlerState) :
    List InputEvent × HandlerState :=
  if data.length < 8 then
    ([], st)
  else
    let isPressed := (data.getD 7 0).testBit 3
    let es := if isPressed && !st.stickPressed then [InputEvent.stickPress] else []
    (es, { st with stickPressed := isPressed })

/-- The `button_map` dict literal of `InputHandler._process_buttons`, in its
insertion (iteration) order: name, byte index, bit position, event. -/
def buttonMap : List (ButtonName × Nat × Nat × InputEvent) :=
  [(.bd, 6, 0, .buttonBD),
   (.left, 7, 1, .buttonLeft),
   (.m1, 6, 5, .buttonM1),
   (.m2, 6, 6, .buttonM2),
   (.m3, 6, 7, .buttonM3),
   (.mr, 7, 0, .buttonMR)]

/-- The `for name, (byte_idx, bit_pos, event) in button_map.items()` loop body
of `_process_buttons`: read the bit, emit on rising edge, record the state. -/
def process_buttons_loop (data : List Nat) :
    List (ButtonName × Nat × Nat × InputEvent) → (ButtonName → Bool) →
    List InputEvent × (ButtonName → Bool)
  | [], bs => ([], bs)
  | (name, byteIdx, bitPos, ev) :: rest, bs =>
      let isPressed := (data.getD byteIdx 0).testBit bitPos
      let wasPressed := bs name
      let es := if isPressed && !wasPressed then [ev] else []
      let bs1 := fun n => if n = name then isPressed else bs n
      let r := process_buttons_loop data rest bs1
      (es ++ r.1, r.2)

/-- `InputHandler._process_buttons`: short reports are ignored; otherwise run
the edge-detection loop over the six navigation buttons. -/
def process_buttons (data : List Nat) (st : HandlerState) :
    List InputEvent × HandlerState :=
  if data.length < 8 then
    ([], st)
  else
    let r := process_buttons_loop data buttonMap st.buttonState
    (r.1, { st with buttonState := r.2 })

/-- Modelled from the spec: `EventDecoder.decode_report` (declared in
`gui/models/event_decoder.py`, which is not under `src/`). Per §4.1 decoding
fails (`MalformedReport` / `ValueError`) exactly when the report is shorter
than the minimum required length — 8 bytes, the report's fixed minimum length
(§3) — and otherwise always succeeds, reading the two stick axes as unsigned
bytes at fixed offsets (bytes 1 and 2 here) and retaining the raw bytes. -/
def decode_report (data : List Nat) : Option (Nat × Nat × List Nat) :=
  if data.length < 8 then none else some (data.getD 1 0, data.getD 2 0, data)

/-- `InputHandler._process_report`: decode (skipping the report on a decode
failure), then process the thumbstick, the stick button, and the navigation
buttons, in that order. The returned list is every event emitted for this
report, in emission order. -/
def process_report (now : Nat) (data : List Nat) (st : HandlerState) :
    List InputEvent × HandlerState :=
  match decode_report data with
  | none => ([], st)
  | some (x, y, raw) =>
      let r1 := process_thumbstick x y now st
      let r2 := process_stick_button raw r1.2
      let r3 := process_buttons raw r2.2
      (r1.1 ++ r2.1 ++ r3.1, r3.2)

/-- `InputHandler._emit`: call the registered callback on the event inside a
`try/except`; an exception from the callback is turned into a logged error
line and nothing else. A callback is a function that either succeeds or
raises, modelled as `Except`. -/
def emitLog (cb : InputEvent → Except String Unit) (e : InputEvent) :
    List String :=
  match cb e with
  | .ok _ => []
  | .error msg => ["Callback error: " ++ msg]

/-- `_process_thumbstick` with the `self._emit(direction)` call inlined at its
emission point, threading the callback's log output. -/
def process_thumbstick_emit (cb : InputEvent → Except String Unit)
    (x y now : Nat) (st : HandlerState) : HandlerState × List String :=
  let st1 := { st with stickX := x, stickY := y }
  let direction := stickDirection x y
  if direction ≠ st.repeatDirection then
    match direction with
    | some d =>
        ({ st1 with repeatDirection := some d, repeatStartTime := now,
                    lastRepeatTime := now },
         emitLog cb d)
    | none => ({ st1 with repeatDirection := none }, [])
  else
    (st1, [])

/-- `_process_stick_button` with `self._emit(...)` inlined. -/
def process_stick_button_emit (cb : InputEvent → Except String Unit)
    (data : List Nat) (st : HandlerState) : HandlerState × List String :=
  if data.length < 8 then
    (st, [])
  else
    let isPressed := (data.getD 7 0).testBit 3
    let logs := if isPressed && !st.stickPressed then emitLog cb .stickPress else []
    ({ st with stickPressed := isPressed }, logs)

/-- The `_process_buttons` loop with `self._emit(event)` inlined: the callback
runs between the edge checks of consecutive buttons, as in the source. -/
def process_buttons_loop_emit (cb : InputEvent → Except String Unit)
    (data : List Nat) :
    List (ButtonName × Nat × Nat × InputEvent) → (ButtonName → Bool) →
    (ButtonName → Bool) × List String
  | [], bs => (bs, [])
  | (name, byteIdx, bitPos, ev) :: rest, bs =>
      let isPressed := (data.getD byteIdx 0).testBit bitPos
      let logs := if isPressed && !bs name then emitLog cb ev else []
      let bs1 := fun n => if n = name then isPressed else bs n
      let r := process_buttons_loop_emit cb data rest bs1
      (r.1, logs ++ r.2)

/-- `_process_buttons` with emission inlined. -/
def process_buttons_emit (cb : InputEvent → Except String Unit)
    (data : List Nat) (st : HandlerState) : HandlerState × List String :=
  if data.length < 8 then
    (st, [])
  else
    let r := process_buttons_loop_emit cb data buttonMap st.buttonState
    ({ st with buttonState := r.1 }, r.2)

/-- `_process_report` with emission inlined end-to-end: the effect of one
report on the handler state together with everything the callback made the
handler log. -/
def process_report_emit (cb : InputEvent → Except String Unit)
    (now : Nat) (data : List Nat) (st : HandlerState) :
    HandlerState × List String :=
  match decode_report data with
  | none => (st, [])
  | some (x, y, raw) =>
      let r1 := process_thumbstick_emit cb x y now st
      let r2 := process_stick_button_emit cb raw r1.1
      let r3 := process_buttons_emit cb raw r2.1
      (r3.1, r1.2 ++ r2.2 ++ r3.2)

/-- Models Python `b & ~(1 << i)` on a `bytearray` cell. A cell always holds
an 8-bit value, so taking the complement within the 8-bit mask `0xFF` yields
the stored result exactly. -/
def pyClearBit (b i : Nat) : Nat := b &&& (255 ^^^ (1 <<< i))

/-- `lcd/canvas.py` `Canvas`: instance dimensions (constructor defaults
160 x 43) and the 960-byte framebuffer `_buffer`. -/
structure Canvas where
  width : Nat
  height : Nat
  buffer : List Nat

/-- `Canvas.WIDTH` (class constant, used for the byte layout). -/
def Canvas.WIDTH : Nat := 160

/-- `Canvas.HEIGHT` (class constant). -/
def Canvas.HEIGHT : Nat := 43

/-- `Canvas.FRAMEBUFFER_SIZE = 960` (160 x 6). -/
def Canvas.FRAMEBUFFER_SIZE : Nat := 960

/-- `Canvas.__init__`: given dimensions, zeroed framebuffer. -/
def Canvas.init (width : Nat := 160) (height : Nat := 43) : Canvas :=
  { width := width, height := height
    buffer := List.replicate Canvas.FRAMEBUFFER_SIZE 0 }

/-- `Canvas.set_pixel`: silently ignore out-of-range coordinates; otherwise
set or clear bit `y % 8` of byte `x + (y // 8) * WIDTH`. Coordinates are `Int`
since Python callers may pass negative values. -/
def Canvas.set_pixel (c : Canvas) (x y : Int) (onVal : Bool := true) : Canvas :=
  if 0 ≤ x ∧ x < c.width ∧ 0 ≤ y ∧ y < c.height then
    let byteIdx := x.toNat + (y.toNat / 8) * Canvas.WIDTH
    let bitInByte := y.toNat % 8
    let b := c.buffer.getD byteIdx 0
    let b' := if onVal then b ||| (1 <<< bitInByte) else pyClearBit b bitInByte
    { c with buffer := c.buffer.set byteIdx b' }
  else
    c

/-- `Canvas.get_pixel`: `false` out of range; otherwise test bit `y % 8` of
byte `x + (y // 8) * WIDTH`. -/
def Canvas.get_pixel (c : Canvas) (x y : Int) : Bool :=
  if 0 ≤ x ∧ x < c.width ∧ 0 ≤ y ∧ y < c.height then
    (c.buffer.getD (x.toNat + (y.toNat / 8) * Canvas.WIDTH) 0).testBit (y.toNat % 8)
  else
    false

/-- `Canvas.to_bytes`: the framebuffer, as an immutable copy. -/
def Canvas.to_bytes (c : Canvas) : List Nat := c.buffer

/-- `Canvas.from_bytes`: truncate input longer than `FRAMEBUFFER_SIZE`, then
zero-pad input shorter than it. -/
def Canvas.from_bytes (c : Canvas) (data : List Nat) : Canvas :=
  let d := if data.length > Canvas.FRAMEBUFFER_SIZE then
             data.take Canvas.FRAMEBUFFER_SIZE
           else data
  let buf := if d.length < Canvas.FRAMEBUFFER_SIZE then
               d ++ List.replicate (Canvas.FRAMEBUFFER_SIZE - d.length) 0
             else d
  { c with buffer := buf }

/-- `g13_ops/hardware/lcd.py` `G13LCD`: the hardware LCD module's 960-byte
framebuffer. -/
structure G13LCD where
  framebuffer : List Nat

/-- `G13LCD.BYTES_PER_ROW = WIDTH // 8 = 20`. -/
def G13LCD.BYTES_PER_ROW : Nat := 20

/-- `G13LCD.__init__`: zeroed framebuffer. -/
def G13LCD.init : G13LCD := { framebuffer := List.replicate 960 0 }

/-- `G13LCD.set_pixel`: silently ignore out-of-range coordinates; otherwise
set or clear bit `7 - (x % 8)` (MSB first) of byte
`y * BYTES_PER_ROW + x // 8`. -/
def G13LCD.set_pixel (lcd : G13LCD) (x y : Int) (onVal : Bool := true) : G13LCD :=
  if 0 ≤ x ∧ x < 160 ∧ 0 ≤ y ∧ y < 43 then
    let byteIdx := y.toNat * G13LCD.BYTES_PER_ROW + x.toNat / 8
    let bitIdx := 7 - x.toNat % 8
    let b := lcd.framebuffer.getD byteIdx 0
    let b' := if onVal then b ||| (1 <<< bitIdx) else pyClearBit b bitIdx
    { framebuffer := lcd.framebuffer.set byteIdx b' }
  else
    lcd

/-- The (byte index, bit index) cell that `Canvas.set_pixel` addresses for an
in-range pixel. -/
def canvasPixelPos (x y : Nat) : Nat × Nat :=
  (x + (y / 8) * Canvas.WIDTH, y % 8)

/-- The (byte index, bit index) cell that `G13LCD.set_pixel` addresses for an
in-range pixel. -/
def g13lcdPixelPos (x y : Nat) : Nat × Nat :=
  (y * G13LCD.BYTES_PER_ROW + x / 8, 7 - x % 8)

/-- `menu/items.py` `MenuItem`. The callable fields `action` and `submenu`
are modelled by opaque tokens naming the callback / submenu factory (`none`
when the field is `None`); `value_getter` is a callable that returns a string
or raises, modelled with `Except`. -/
structure MenuItem where
  id : String
  label : String
  icon : Option Nat := none
  action : Option Nat := none
  submenu : Option Nat := none
  value_getter : Option (Unit → Except String String) := none
  enabled : Bool := true
  shortcut : Option String := none

instance : Inhabited MenuItem :=
  ⟨{ id := "", label := "" }⟩

/-- `MenuItem.get_display_value`: `None` without a getter; the getter's string
if it returns; the string "?" if it raises. -/
def MenuItem.get_display_value (it : MenuItem) : Option String :=
  match it.value_getter with
  | none => none
  | some g =>
      match g () with
      | .ok v => some v
      | .error _ => some "?"

/-- What activating or navigating a menu screen asks of the screen manager:
push the screen built by a submenu factory token, run an action callback
token, or pop the current screen. -/
inductive MenuEffect where
  | push (submenuToken : Nat)
  | runAction (actionToken : Nat)
  | pop
  deriving DecidableEq, Repr

/-- `MenuScreen.VISIBLE_ITEMS`. -/
def VISIBLE_ITEMS : Nat := 4

/-- `menu/screens/base_menu.py` `MenuScreen` presentation state. The `dirty`
flag is the `Screen` base-class redraw marker. -/
structure MenuScreenState where
  title : String
  items : List MenuItem
  selectedIndex : Nat
  scrollOffset : Nat
  dirty : Bool

/-- Modelled from the spec: `Screen.mark_dirty` (declared in
`menu/screen.py`, which is not under `src/`) sets the screen's dirty flag,
the per-screen marker that its pixel output is stale (§3, glossary). -/
def markDirty (s : MenuScreenState) : MenuScreenState := { s with dirty := true }

/-- `MenuScreen.__init__`: selection at 0, scroll at 0. The initial dirty
flag is taken as given by the `Screen` base class. -/
def MenuScreenState.init (title : String) (items : List MenuItem)
    (dirty : Bool) : MenuScreenState :=
  { title := title, items := items, selectedIndex := 0, scrollOffset := 0,
    dirty := dirty }

/-- `MenuScreen._move_selection`: no-op on an empty item list; otherwise move
the selection by `delta` wrapping modulo the item count (Python `%` on a
positive modulus, i.e. `Int.emod`), clamp the scroll window so the selection
stays visible, and mark the screen dirty. -/
def move_selection (s : MenuScreenState) (delta : Int) : MenuScreenState :=
  if s.items.isEmpty then s
  else
    let sel := (((s.selectedIndex : Int) + delta) % (s.items.length : Int)).toNat
    let scroll :=
      if sel < s.scrollOffset then sel
      else if sel ≥ s.scrollOffset + VISIBLE_ITEMS then sel - VISIBLE_ITEMS + 1
      else s.scrollOffset
    markDirty { s with selectedIndex := sel, scrollOffset := scroll }

/-- `MenuScreen._select_current`: no-op on an empty list or a disabled item;
a submenu item asks the manager to push the factory's screen; otherwise an
action item runs its callback and marks the screen dirty. An in-range
selection index is assumed (Python would raise `IndexError` otherwise), with
`default` standing in for the unreachable out-of-range read. -/
def select_current (s : MenuScreenState) : MenuScreenState × List MenuEffect :=
  if s.items.isEmpty then (s, [])
  else
    let item := s.items.getD s.selectedIndex default
    if !item.enabled then (s, [])
    else
      match item.submenu with
      | some tok => (s, [.push tok])
      | none =>
          match item.action with
          | some tok => (markDirty s, [.runAction tok])
          | none => (s, [])

/-- `MenuScreen.on_input`: stick up / down move the selection, stick press
activates, BD pops via the manager; everything else is unhandled. Returns the
new screen state, the effects requested of the manager, and the handled
flag. -/
def on_input (s : MenuScreenState) (e : InputEvent) :
    MenuScreenState × List MenuEffect × Bool :=
  match e with
  | .stickUp => (move_selection s (-1), [], true)
  | .stickDown => (move_selection s 1, [], true)
  | .stickPress =>
      let (s', effs) := select_current s
      (s', effs, true)
  | .buttonBD => (s, [.pop], true)
  | _ => (s, [], false)

/-- The navigation event each discrete button emits. -/
def buttonEvent : ButtonName → InputEvent
  | .stick => .stickPress
  | .bd => .buttonBD
  | .left => .buttonLeft
  | .m1 => .buttonM1
  | .m2 => .buttonM2
  | .m3 => .buttonM3
  | .mr => .buttonMR

/-- The bit of a raw report holding each discrete button (byte 7 bit 3 for
the stick click, the `button_map` offsets for the rest). -/
def buttonBit (data : List Nat) : ButtonName → Bool
  | .stick => (data.getD 7 0).testBit 3
  | .bd => (data.getD 6 0).testBit 0
  | .left => (data.getD 7 0).testBit 1
  | .m1 => (data.getD 6 0).testBit 5
  | .m2 => (data.getD 6 0).testBit 6
  | .m3 => (data.getD 6 0).testBit 7
  | .mr => (data.getD 7 0).testBit 0

/-- The handler's tracked last-known state of a discrete button:
`_stick_pressed` for the stick click, the `_button_state` dict for the
rest. -/
def trackedButton (st : HandlerState) : ButtonName → Bool
  | .stick => st.stickPressed
  | b => st.buttonState b

/-- The handler's poll loop restricted to delivered reports: feed each
(time, report) pair through `_process_report`, collecting the events emitted
for each report. -/
def runReports (st : HandlerState) : List (Nat × List Nat) → List (List InputEvent)
  | [] => []
  | (t, r) :: rest =>
      (process_report t r st).1 :: runReports (process_report t r st).2 rest

/-- The poll loop's repeat path (`_poll_loop` lines 84-86) on timeout ticks:
starting from state `st`, call `_check_stick_repeat` once per millisecond at
times t0+1, ..., t0+n, collecting each emitted repeat event with its emission
time. -/
def run_checks (t0 : Nat) (st : HandlerState) : Nat → List (Nat × InputEvent) × HandlerState
  | 0 => ([], st)
  | n + 1 =>
      let r := run_checks t0 st n
      let c := check_stick_repeat (t0 + (n + 1)) r.2
      (r.1 ++ (match c.1 with
               | some ev => [(t0 + (n + 1), ev)]
               | none => []), c.2)

/-- C10: `MenuItem.get_display_value` never raises: it is `none` when no
`value_getter` is set, and when the getter raises, the exception is swallowed
and the string "?" is returned. -/
theorem get_display_value_never_raises (it : MenuItem) :
    (it.value_getter = none → it.get_display_value = none) ∧
    (∀ g msg, it.value_getter = some g → g () = .error msg →
        it.get_display_value = some "?") := by
  constructor
  · intro h
    simp [MenuItem.get_display_value, h]
  · intro g msg hg he
    simp [MenuItem.get_display_value, hg, he]

/-- Witness for C10: a getter-less item displays nothing, and an item whose
getter raises displays "?". -/
theorem get_display_value_never_raises_witness :
    ({ id := "a", label := "A" } : MenuItem).get_display_value = none ∧
    ({ id := "b", label := "B",
       value_getter := some fun _ => Except.error "boom" } : MenuItem).get_display_value
      = some "?" := by
  constructor
  · exact (get_display_value_never_raises _).1 rfl
  · exact (get_display_value_never_raises _).2 _ "boom" rfl rfl

/-- C9: activating a disabled selected item with stick-press is a no-op: the
screen state (selection, scroll, dirty flag) is returned unchanged, no effect
(action or submenu push) is requested, yet the event is reported handled. -/
theorem disabled_item_select_noop (s : MenuScreenState)
    (hne : s.items ≠ []) (hsel : s.selectedIndex < s.items.length)
    (hdis : (s.items.getD s.selectedIndex default).enabled = false) :
    on_input s .stickPress = (s, [], true) := by
  have hemp : s.items.isEmpty = false := by
    simp [List.isEmpty_iff]
    exact hne
  have hdis' : (s.items[s.selectedIndex]?.getD default).enabled = false := by
    simpa [List.getD] using hdis
  simp [on_input, select_current, hemp, hdis']

/-- Witness for C9: a two-item menu whose selected head item is disabled. -/
theorem disabled_item_select_noop_witness :
    on_input
      { title := "m",
        items := [{ id := "x", label := "X", action := some 0, enabled := false },
                  { id := "y", label := "Y", action := some 1 }],
        selectedIndex := 0, scrollOffset := 0, dirty := false }
      .stickPress
    = ({ title := "m",
         items := [{ id := "x", label := "X", action := some 0, enabled := false },
                   { id := "y", label := "Y", action := some 1 }],
         selectedIndex := 0, scrollOffset := 0, dirty := false }, [], true) :=
  disabled_item_select_noop _ (by simp) (by simp) rfl

lemma move_selection_items (s : MenuScreenState) (d : Int) :
    (move_selection s d).items = s.items := by
  by_cases h : s.items.isEmpty <;> simp [move_selection, markDirty, h]

lemma move_selection_sel (s : MenuScreenState) (d : Int)
    (h : s.items.isEmpty = false) :
    (move_selection s d).selectedIndex =
      (((s.selectedIndex : Int) + d) % (s.items.length : Int)).toNat := by
  simp [move_selection, markDirty, h]

lemma toNat_mod_down (a n : Nat) :
    (((a : Int) + 1) % (n : Int)).toNat = (a + 1) % n := by
  have h : ((a : Int) + 1) % (n : Int) = (((a + 1) % n : Nat) : Int) := by
    push_cast
    ring_nf
  rw [h, Int.toNat_natCast]

lemma toNat_mod_up (n : Nat) (hn : 0 < n) :
    ((-1 : Int) % (n : Int)).toNat = n - 1 := by
  have h : (-1 : Int) % (n : Int) = (n : Int) - 1 := by
    rw [show (-1 : Int) = ((n : Int) - 1) + (n : Int) * (-1) by ring,
        Int.add_mul_emod_self_left]
    exact Int.emod_eq_of_lt (by omega) (by omega)
  omega

lemma iterate_stickDown (s : MenuScreenState) (hne : s.items ≠ [])
    (hsel : s.selectedIndex < s.items.length) : ∀ k : Nat,
    ((fun t => (on_input t .stickDown).1)^[k] s).items = s.items ∧
    ((fun t => (on_input t .stickDown).1)^[k] s).selectedIndex
      = (s.selectedIndex + k) % s.items.length := by
  intro k
  induction k with
  | zero =>
      simpa using (Nat.mod_eq_of_lt hsel).symm
  | succ k ih =>
      obtain ⟨hi, hs⟩ := ih
      rw [Function.iterate_succ_apply']
      have hstep : (on_input ((fun t => (on_input t .stickDown).1)^[k] s) .stickDown).1
          = move_selection ((fun t => (on_input t .stickDown).1)^[k] s) 1 := rfl
      have hemp : ((fun t => (on_input t .stickDown).1)^[k] s).items.isEmpty = false := by
        rw [hi]
        simp [List.isEmpty_iff]
        exact hne
      refine ⟨?_, ?_⟩
      · rw [hstep, move_selection_items, hi]
      · rw [hstep, move_selection_sel _ _ hemp, hs, hi, toNat_mod_down,
            Nat.mod_add_mod, Nat.add_assoc]

/-- C6: on a non-empty N-item menu with the selection at index 0, N
stick-down inputs wrap the selection back to index 0, and a single stick-up
input lands it on index N-1. -/
theorem menu_selection_wraps (s : MenuScreenState)
    (hne : s.items ≠ []) (h0 : s.selectedIndex = 0) :
    ((fun t => (on_input t .stickDown).1)^[s.items.length] s).selectedIndex = 0 ∧
    ((on_input s .stickUp).1).selectedIndex = s.items.length - 1 := by
  have hn : 0 < s.items.length := List.length_pos.mpr hne
  have hsel : s.selectedIndex < s.items.length := h0 ▸ hn
  constructor
  · rw [(iterate_stickDown s hne hsel s.items.length).2, h0, Nat.zero_add,
        Nat.mod_self]
  · have hemp : s.items.isEmpty = false := by
      simp [List.isEmpty_iff]
      exact hne
    have hstep : (on_input s .stickUp).1 = move_selection s (-1) := rfl
    rw [hstep, move_selection_sel _ _ hemp, h0]
    norm_num
    exact toNat_mod_up _ hn

/-- Witness for C6: a three-item menu; three stick-downs return the selection
to 0, one stick-up from 0 lands on 2. -/
theorem menu_selection_wraps_witness :
    ((fun t => (on_input t .stickDown).1)^[3]
        { title := "m", items := [default, default, default],
          selectedIndex := 0, scrollOffset := 0, dirty := false }).selectedIndex = 0 ∧
    ((on_input
        { title := "m", items := [default, default, default],
          selectedIndex := 0, scrollOffset := 0, dirty := false }
        .stickUp).1).selectedIndex = 2 :=
  menu_selection_wraps
    { title := "m", items := [default, default, default],
      selectedIndex := 0, scrollOffset := 0, dirty := false }
    (by simp) rfl

lemma testBit_one_shiftLeft (i j : Nat) :
    ((1 : Nat) <<< i).testBit j = decide (j = i) := by
  have h : (1 : Nat) <<< i = 2 ^ i := by rw [Nat.shiftLeft_eq, one_mul]
  rw [h, Nat.testBit_two_pow]
  simp [eq_comm]

lemma setBit_testBit (b i j : Nat) :
    (b ||| (1 <<< i)).testBit j = (b.testBit j || decide (j = i)) := by
  rw [Nat.testBit_or, testBit_one_shiftLeft]

lemma testBit_mask_clear (i j : Nat) (hi : i < 8) (hj : j < 8) :
    ((255 : Nat) ^^^ (1 <<< i)).testBit j = decide (j ≠ i) := by
  interval_cases i <;> interval_cases j <;> decide

lemma pyClearBit_testBit (b i j : Nat) (hi : i < 8) (hj : j < 8) :
    (pyClearBit b i).testBit j = (b.testBit j && decide (j ≠ i)) := by
  unfold pyClearBit
  rw [Nat.testBit_and, testBit_mask_clear i j hi hj]

lemma getD_set_self (l : List Nat) (k b : Nat) (h : k < l.length) :
    (l.set k b).getD k 0 = b := by
  rw [List.getD_eq_getElem _ _ (by simpa using h)]
  simp

lemma getD_set_ne (l : List Nat) (k j b : Nat) (h : j ≠ k) :
    (l.set k b).getD j 0 = l.getD j 0 := by
  simp [List.getD, List.getElem?_set_ne h.symm]

/-- C4: on the 160x43 canvas, `get_pixel` after `set_pixel` at the same
in-range coordinate returns the written value; an out-of-range `set_pixel`
is a total no-op (leaving every in-range pixel unchanged), and an
out-of-range `get_pixel` returns `false`. -/
theorem canvas_pixel_contract (c : Canvas) (x y : Int) (v : Bool)
    (hw : c.width = 160) (hh : c.height = 43) (hb : c.buffer.length = 960) :
    ((0 ≤ x ∧ x < 160 ∧ 0 ≤ y ∧ y < 43) →
        (c.set_pixel x y v).get_pixel x y = v) ∧
    (¬(0 ≤ x ∧ x < 160 ∧ 0 ≤ y ∧ y < 43) →
        (∀ x' y' : Int, 0 ≤ x' → x' < 160 → 0 ≤ y' → y' < 43 →
            (c.set_pixel x y v).get_pixel x' y' = c.get_pixel x' y') ∧
        c.get_pixel x y = false) := by
  constructor
  · rintro ⟨hx0, hx1, hy0, hy1⟩
    have hcond : 0 ≤ x ∧ x < (c.width : Int) ∧ 0 ≤ y ∧ y < (c.height : Int) := by
      rw [hw, hh]
      exact ⟨hx0, by exact_mod_cast hx1, hy0, by exact_mod_cast hy1⟩
    have hklt : x.toNat + (y.toNat / 8) * Canvas.WIDTH < c.buffer.length := by
      have h1 : x.toNat < 160 := by omega
      have h2 : y.toNat < 43 := by omega
      rw [hb]
      simp only [Canvas.WIDTH]
      omega
    have hbit : y.toNat % 8 < 8 := Nat.mod_lt _ (by norm_num)
    simp only [Canvas.set_pixel, Canvas.get_pixel, if_pos hcond]
    rw [getD_set_self _ _ _ hklt]
    cases v
    · simp only [Bool.false_eq_true, if_false]
      rw [pyClearBit_testBit _ _ _ hbit hbit]
      simp
    · simp only [if_true]
      rw [setBit_testBit]
      simp
  · intro hnot
    have hcond : ¬(0 ≤ x ∧ x < (c.width : Int) ∧ 0 ≤ y ∧ y < (c.height : Int)) := by
      rw [hw, hh]
      rintro ⟨a1, a2, a3, a4⟩
      exact hnot ⟨a1, by exact_mod_cast a2, a3, by exact_mod_cast a4⟩
    have hset : c.set_pixel x y v = c := by
      simp only [Canvas.set_pixel, if_neg hcond]
    constructor
    · intro x' y' _ _ _ _
      rw [hset]
    · simp only [Canvas.get_pixel, if_neg hcond]

/-- Witness for C4: setting pixel (3,5) makes it read back true; setting the
out-of-range (200,7) leaves pixel (0,0) unchanged and reads back false. -/
theorem canvas_pixel_contract_witness :
    (((Canvas.init 160 43).set_pixel 3 5 true).get_pixel 3 5 = true) ∧
    (((Canvas.init 160 43).set_pixel 200 7 true).get_pixel 0 0
        = (Canvas.init 160 43).get_pixel 0 0) ∧
    ((Canvas.init 160 43).get_pixel 200 7 = false) := by
  have h1 := canvas_pixel_contract (Canvas.init 160 43) 3 5 true rfl rfl
      (by simp [Canvas.init]; rfl)
  have h2 := canvas_pixel_contract (Canvas.init 160 43) 200 7 true rfl rfl
      (by simp [Canvas.init]; rfl)
  exact ⟨h1.1 (by decide),
         (h2.2 (by decide)).1 0 0 (by decide) (by decide) (by decide) (by decide),
         (h2.2 (by decide)).2⟩

set_option maxRecDepth 8192 in
/-- C5: `to_bytes` is exactly the fixed 960-byte framebuffer, and feeding it
to `from_bytes` on a fresh 160x43 canvas reproduces the original canvas
pixel-for-pixel. -/
theorem canvas_bytes_roundtrip (c : Canvas)
    (hw : c.width = 160) (hh : c.height = 43) (hb : c.buffer.length = 960) :
    c.to_bytes.length = 960 ∧
    ∀ x y : Int,
      ((Canvas.init 160 43).from_bytes c.to_bytes).get_pixel x y
        = c.get_pixel x y := by
  have hlen : c.to_bytes.length = 960 := by
    simpa [Canvas.to_bytes] using hb
  refine ⟨hlen, ?_⟩
  have heq : (Canvas.init 160 43).from_bytes c.to_bytes = c := by
    obtain ⟨w, h, buf⟩ := c
    simp only [Canvas.to_bytes] at hb ⊢
    simp only at hw hh
    simp [Canvas.from_bytes, Canvas.init, Canvas.FRAMEBUFFER_SIZE, hb, hw, hh]
  intro x y
  rw [heq]

/-- Witness for C5: a fresh canvas with one pixel set round-trips through
`to_bytes`/`from_bytes` with every pixel intact. -/
theorem canvas_bytes_roundtrip_witness :
    (((Canvas.init 160 43).set_pixel 9 9 true).to_bytes.length = 960) ∧
    ((Canvas.init 160 43).from_bytes
        ((Canvas.init 160 43).set_pixel 9 9 true).to_bytes).get_pixel 9 9
      = ((Canvas.init 160 43).set_pixel 9 9 true).get_pixel 9 9 := by
  have h := canvas_bytes_roundtrip ((Canvas.init 160 43).set_pixel 9 9 true)
      (by simp [Canvas.set_pixel, Canvas.init])
      (by simp [Canvas.set_pixel, Canvas.init])
      (by simp [Canvas.set_pixel, Canvas.init]; rfl)
  exact ⟨h.1, h.2 9 9⟩

/-- Counterexample for C8: at the in-range pixel (0,0), `Canvas.set_pixel`
addresses byte 0 bit 0, while `G13LCD.set_pixel` addresses byte 0 bit 7 — the
two modules do not map the pixel to the same (byte index, bit index). -/
theorem canvas_lcd_layout_counterexample :
    ¬ (canvasPixelPos 0 0 = g13lcdPixelPos 0 0) := by decide

set_option maxRecDepth 100000 in
/-- C8 (amended): the two modules use different bit-packing layouts — there
is an in-range pixel mapped to different (byte, bit) cells by the LCD canvas
module and the hardware LCD module, and the serialized frames produced by
setting that single pixel in each module differ. -/
theorem canvas_lcd_layouts_differ :
    ∃ x y : Nat, x < 160 ∧ y < 43 ∧
      canvasPixelPos x y ≠ g13lcdPixelPos x y ∧
      ((Canvas.init 160 43).set_pixel (x : Int) (y : Int) true).to_bytes ≠
        (G13LCD.init.set_pixel (x : Int) (y : Int) true).framebuffer :=
  ⟨0, 0, by decide, by decide, by decide, by decide⟩

/-- C1: stick samples with both axes within threshold-1 of center 128 yield
no direction; a deflection of threshold+1 past center on one axis yields
exactly that axis's direction; and when both axes exceed the threshold the
vertical direction wins (stick-up or stick-down), never the horizontal. -/
theorem stick_direction_deadzone_priority :
    (∀ x y : Nat,
        STICK_CENTER - (STICK_THRESHOLD - 1) ≤ x →
        x ≤ STICK_CENTER + (STICK_THRESHOLD - 1) →
        STICK_CENTER - (STICK_THRESHOLD - 1) ≤ y →
        y ≤ STICK_CENTER + (STICK_THRESHOLD - 1) →
        stickDirection x y = none) ∧
    (stickDirection STICK_CENTER (STICK_CENTER + (STICK_THRESHOLD + 1))
        = some .stickDown ∧
     stickDirection STICK_CENTER (STICK_CENTER - (STICK_THRESHOLD + 1))
        = some .stickUp ∧
     stickDirection (STICK_CENTER + (STICK_THRESHOLD + 1)) STICK_CENTER
        = some .stickRight ∧
     stickDirection (STICK_CENTER - (STICK_THRESHOLD + 1)) STICK_CENTER
        = some .stickLeft) ∧
    (∀ x y : Nat, x ≤ 255 → y ≤ 255 →
        (y < STICK_CENTER - STICK_THRESHOLD ∨ STICK_CENTER + STICK_THRESHOLD < y) →
        (x < STICK_CENTER - STICK_THRESHOLD ∨ STICK_CENTER + STICK_THRESHOLD < x) →
        stickDirection x y = some .stickUp ∨ stickDirection x y = some .stickDown) := by
  refine ⟨?_, by decide, ?_⟩
  · intro x y h1 h2 h3 h4
    simp only [STICK_CENTER, STICK_THRESHOLD] at h1 h2 h3 h4
    simp only [stickDirection, STICK_CENTER, STICK_THRESHOLD]
    rw [if_neg (by omega), if_neg (by omega), if_neg (by omega), if_neg (by omega)]
  · intro x y hx255 hy255 hy hx
    simp only [STICK_CENTER, STICK_THRESHOLD] at hy hx
    simp only [stickDirection, STICK_CENTER, STICK_THRESHOLD]
    rcases hy with h | h
    · left
      rw [if_pos (by omega)]
    · right
      rw [if_neg (by omega), if_pos (by omega)]

/-- Witness for C1: (100,150) is inside the dead zone; (30,200) deflects both
axes past threshold and yields a vertical direction. -/
theorem stick_direction_deadzone_priority_witness :
    stickDirection 100 150 = none ∧
    (stickDirection 30 200 = some .stickUp ∨
     stickDirection 30 200 = some .stickDown) :=
  ⟨stick_direction_deadzone_priority.1 100 150
      (by decide) (by decide) (by decide) (by decide),
   stick_direction_deadzone_priority.2.2 30 200
      (by decide) (by decide) (by decide) (by decide)⟩

lemma ite_flatMap_single {α β : Type} (c : Prop) [Decidable c] (f : α → List β)
    (e : α) :
    (if c then f e else []) = (if c then [e] else []).flatMap f := by
  by_cases h : c <;> simp [h]

lemma process_buttons_loop_emit_spec (cb : InputEvent → Except String Unit)
    (data : List Nat) :
    ∀ (entries : List (ButtonName × Nat × Nat × InputEvent)) (bs : ButtonName → Bool),
    (process_buttons_loop_emit cb data entries bs).1
      = (process_buttons_loop data entries bs).2 ∧
    (process_buttons_loop_emit cb data entries bs).2
      = ((process_buttons_loop data entries bs).1).flatMap (emitLog cb) := by
  intro entries
  induction entries with
  | nil =>
      intro bs
      simp [process_buttons_loop_emit, process_buttons_loop]
  | cons e rest ih =>
      intro bs
      obtain ⟨name, byteIdx, bitPos, ev⟩ := e
      have h := ih fun n => if n = name then (data.getD byteIdx 0).testBit bitPos else bs n
      simp only [process_buttons_loop_emit, process_buttons_loop]
      refine ⟨h.1, ?_⟩
      rw [h.2, List.flatMap_append]
      congr 1
      exact ite_flatMap_single _ _ _

lemma process_thumbstick_emit_spec (cb : InputEvent → Except String Unit)
    (x y now : Nat) (st : HandlerState) :
    (process_thumbstick_emit cb x y now st).1 = (process_thumbstick x y now st).2 ∧
    (process_thumbstick_emit cb x y now st).2
      = ((process_thumbstick x y now st).1).flatMap (emitLog cb) := by
  by_cases hd : stickDirection x y ≠ st.repeatDirection
  · cases hsd : stickDirection x y with
    | none =>
        rw [hsd] at hd
        simp [process_thumbstick_emit, process_thumbstick, hsd, hd]
    | some d =>
        rw [hsd] at hd
        simp [process_thumbstick_emit, process_thumbstick, hsd, hd]
  · simp [process_thumbstick_emit, process_thumbstick, hd]

lemma process_stick_button_emit_spec (cb : InputEvent → Except String Unit)
    (data : List Nat) (st : HandlerState) :
    (process_stick_button_emit cb data st).1 = (process_stick_button data st).2 ∧
    (process_stick_button_emit cb data st).2
      = ((process_stick_button data st).1).flatMap (emitLog cb) := by
  by_cases h8 : data.length < 8
  · simp [process_stick_button_emit, process_stick_button, h8]
  · simp only [process_stick_button_emit, process_stick_button]
    rw [if_neg h8, if_neg h8]
    exact ⟨rfl, ite_flatMap_single _ _ _⟩

lemma process_buttons_emit_spec (cb : InputEvent → Except String Unit)
    (data : List Nat) (st : HandlerState) :
    (process_buttons_emit cb data st).1 = (process_buttons data st).2 ∧
    (process_buttons_emit cb data st).2
      = ((process_buttons data st).1).flatMap (emitLog cb) := by
  by_cases h8 : data.length < 8
  · simp [process_buttons_emit, process_buttons, h8]
  · have h := process_buttons_loop_emit_spec cb data buttonMap st.buttonState
    simp [process_buttons_emit, process_buttons, h8, h.1, h.2]

lemma process_report_emit_spec (cb : InputEvent → Except String Unit)
    (now : Nat) (data : List Nat) (st : HandlerState) :
    (process_report_emit cb now data st).1 = (process_report now data st).2 ∧
    (process_report_emit cb now data st).2
      = ((process_report now data st).1).flatMap (emitLog cb) := by
  cases hdec : decode_report data with
  | none => simp [process_report_emit, process_report, hdec]
  | some t =>
      obtain ⟨x, y, raw⟩ := t
      have h1 := process_thumbstick_emit_spec cb x y now st
      have h2 := process_stick_button_emit_spec cb raw
          (process_thumbstick x y now st).2
      have h3 := process_buttons_emit_spec cb raw
          (process_stick_button raw (process_thumbstick x y now st).2).2
      simp only [process_report_emit, process_report, hdec]
      constructor
      · rw [h1.1, h2.1, h3.1]
      · rw [h1.1, h2.1, h1.2, h2.2, h3.2, List.flatMap_append, List.flatMap_append]

/-- C7: every event produced for a report reaches the single registered
callback exactly through `_emit`, a failing callback only yields a logged
error line (the emit path is total: exceptions never escape into the poll
loop), and the handler state after the report is identical to the state the
pure event computation yields, whatever the callback does. -/
theorem emit_callback_contained (cb : InputEvent → Except String Unit)
    (now : Nat) (data : List Nat) (st : HandlerState) :
    (process_report_emit cb now data st).1 = (process_report now data st).2 ∧
    (process_report_emit cb now data st).2
      = ((process_report now data st).1).flatMap (emitLog cb) ∧
    (∀ msg : String, ∀ e : InputEvent,
        emitLog (fun _ => Except.error msg) e = ["Callback error: " ++ msg]) :=
  ⟨(process_report_emit_spec cb now data st).1,
   (process_report_emit_spec cb now data st).2,
   fun _ _ => rfl⟩

lemma count_ite_single {α : Type} [BEq α] [LawfulBEq α] [DecidableEq α] (c : Prop) [Decidable c]
    (e a : α) :
    (if c then [e] else []).count a = if c ∧ a = e then 1 else 0 := by
  by_cases h : c <;> by_cases he : a = e <;> simp [h, he]

lemma stickDirection_cases (x y : Nat) (d : InputEvent)
    (h : stickDirection x y = some d) :
    d = .stickUp ∨ d = .stickDown ∨ d = .stickLeft ∨ d = .stickRight := by
  unfold stickDirection at h
  split_ifs at h <;> simp_all

lemma process_thumbstick_buttons_unchanged (x y now : Nat) (st : HandlerState) :
    ((process_thumbstick x y now st).2).stickPressed = st.stickPressed ∧
    ((process_thumbstick x y now st).2).buttonState = st.buttonState := by
  simp only [process_thumbstick]
  split
  · split <;> exact ⟨rfl, rfl⟩
  · exact ⟨rfl, rfl⟩

lemma count_buttonEvent_thumbstick (x y now : Nat) (st : HandlerState)
    (b : ButtonName) :
    ((process_thumbstick x y now st).1).count (buttonEvent b) = 0 := by
  rw [List.count_eq_zero]
  intro hmem
  simp only [process_thumbstick] at hmem
  by_cases hd : stickDirection x y ≠ st.repeatDirection
  · rw [if_pos hd] at hmem
    cases hsd : stickDirection x y with
    | none =>
        rw [hsd] at hmem
        simp at hmem
    | some d =>
        rw [hsd] at hmem
        simp at hmem
        rcases stickDirection_cases x y d hsd with h | h | h | h <;>
          subst h <;> cases b <;> simp [buttonEvent] at hmem
  · rw [if_neg hd] at hmem
    simp at hmem

lemma process_stick_button_spec (data : List Nat) (st : HandlerState)
    (b : ButtonName) (h8 : ¬ data.length < 8) :
    ((process_stick_button data st).1).count (buttonEvent b)
      = (if b = .stick ∧ buttonBit data .stick = true ∧ st.stickPressed = false
         then 1 else 0) ∧
    ((process_stick_button data st).2).stickPressed = buttonBit data .stick ∧
    ((process_stick_button data st).2).buttonState = st.buttonState := by
  refine ⟨?_, ?_, ?_⟩
  · simp only [process_stick_button]
    rw [if_neg h8]
    rw [count_ite_single]
    cases b <;> simp [buttonEvent, buttonBit]
  · simp [process_stick_button, h8, buttonBit]
  · simp [process_stick_button, h8]

lemma process_buttons_spec (data : List Nat) (st : HandlerState)
    (b : ButtonName) (h8 : ¬ data.length < 8) :
    ((process_buttons data st).1).count (buttonEvent b)
      = (if b ≠ .stick ∧ buttonBit data b = true ∧ st.buttonState b = false
         then 1 else 0) ∧
    ((process_buttons data st).2).buttonState b
      = (if b = .stick then st.buttonState b else buttonBit data b) ∧
    ((process_buttons data st).2).stickPressed = st.stickPressed := by
  cases b <;>
    simp [process_buttons, process_buttons_loop, buttonMap, buttonBit,
          buttonEvent, h8, count_ite_single, List.count_append]

lemma trackedButton_init (b : ButtonName) :
    trackedButton initHandlerState b = false := by
  cases b <;> rfl

lemma process_report_button_spec (t : Nat) (data : List Nat) (st : HandlerState)
    (b : ButtonName) (h8 : 8 ≤ data.length) :
    ((process_report t data st).1).count (buttonEvent b)
      = (if buttonBit data b = true ∧ trackedButton st b = false
         then 1 else 0) ∧
    trackedButton (process_report t data st).2 b = buttonBit data b := by
  have h8' : ¬ data.length < 8 := by omega
  have hdec : decode_report data = some (data.getD 1 0, data.getD 2 0, data) := by
    simp [decode_report, h8']
  simp only [process_report, hdec]
  obtain ⟨hsp, hbs⟩ :=
    process_thumbstick_buttons_unchanged (data.getD 1 0) (data.getD 2 0) t st
  obtain ⟨hc2, hsp2, hbs2⟩ :=
    process_stick_button_spec data
      (process_thumbstick (data.getD 1 0) (data.getD 2 0) t st).2 b h8'
  obtain ⟨hc3, hbs3, hsp3⟩ :=
    process_buttons_spec data
      (process_stick_button data
        (process_thumbstick (data.getD 1 0) (data.getD 2 0) t st).2).2 b h8'
  constructor
  · rw [List.count_append, List.count_append,
        count_buttonEvent_thumbstick, hc2, hc3, hsp, hbs2, hbs]
    cases b <;> simp [trackedButton]
  · cases b <;> simp only [trackedButton] <;>
      first
        | rw [hsp3, hsp2]
        | (rw [hbs3]; simp)

lemma runReports_spec (b : ButtonName) :
    ∀ (trs : List (Nat × List Nat)) (st : HandlerState),
      (∀ p ∈ trs, 8 ≤ p.2.length) →
      ∀ i : Nat, i < trs.length →
        ((runReports st trs).getD i []).count (buttonEvent b)
          = (if buttonBit (trs.getD i (0, [])).2 b = true ∧
               (if i = 0 then trackedButton st b
                else buttonBit (trs.getD (i - 1) (0, [])).2 b) = false
             then 1 else 0) := by
  intro trs
  induction trs with
  | nil =>
      intro st h i hi
      simp at hi
  | cons p rest ih =>
      obtain ⟨t, r⟩ := p
      intro st h i hi
      have h8 : 8 ≤ r.length := h (t, r) (List.mem_cons_self _ _)
      have hspec := process_report_button_spec t r st b h8
      cases i with
      | zero =>
          simpa [runReports] using hspec.1
      | succ i =>
          have hrest : ∀ p ∈ rest, 8 ≤ p.2.length :=
            fun q hq => h q (List.mem_cons_of_mem _ hq)
          have hi' : i < rest.length := by simpa using hi
          have := ih (process_report t r st).2 hrest i hi'
          simp only [runReports, List.getD_cons_succ]
          rw [this]
          cases i with
          | zero => simp [hspec.2]
          | succ j => simp

/-- C2: feeding any sequence of raw reports of length >= 8 to a fresh
handler, each discrete button's navigation event appears in report i's
emissions exactly once when the button's bit is set in report i and was clear
in the tracked previous state (the preceding report's bit, or the initial
false), and zero times otherwise — so never on release and never while
held. -/
theorem button_rising_edge_events (trs : List (Nat × List Nat))
    (h8 : ∀ p ∈ trs, 8 ≤ p.2.length) (b : ButtonName) (i : Nat)
    (hi : i < trs.length) :
    ((runReports initHandlerState trs).getD i []).count (buttonEvent b)
      = (if buttonBit (trs.getD i (0, [])).2 b = true ∧
           (if i = 0 then false
            else buttonBit (trs.getD (i - 1) (0, [])).2 b) = false
         then 1 else 0) := by
  have h := runReports_spec b trs initHandlerState h8 i hi
  rwa [trackedButton_init] at h

/-- Witness for C2: with the BD bit (byte 6, bit 0) set in the first two
reports and clear in the third, BD's event is emitted once for the first
report (rising edge), and zero times for the held and released reports. -/
theorem button_rising_edge_events_witness :
    (((runReports initHandlerState
        [(0, [0, 0, 0, 0, 0, 0, 1, 0]),
         (1, [0, 0, 0, 0, 0, 0, 1, 0]),
         (2, [0, 0, 0, 0, 0, 0, 0, 0])]).getD 0 []).count
        (buttonEvent .bd) = 1) ∧
    (((runReports initHandlerState
        [(0, [0, 0, 0, 0, 0, 0, 1, 0]),
         (1, [0, 0, 0, 0, 0, 0, 1, 0]),
         (2, [0, 0, 0, 0, 0, 0, 0, 0])]).getD 1 []).count
        (buttonEvent .bd) = 0) ∧
    (((runReports initHandlerState
        [(0, [0, 0, 0, 0, 0, 0, 1, 0]),
         (1, [0, 0, 0, 0, 0, 0, 1, 0]),
         (2, [0, 0, 0, 0, 0, 0, 0, 0])]).getD 2 []).count
        (buttonEvent .bd) = 0) := by
  refine ⟨?_, ?_, ?_⟩
  · have h := button_rising_edge_events
        [(0, [0, 0, 0, 0, 0, 0, 1, 0]),
         (1, [0, 0, 0, 0, 0, 0, 1, 0]),
         (2, [0, 0, 0, 0, 0, 0, 0, 0])] (by decide) .bd 0 (by decide)
    rw [h]
    decide
  · have h := button_rising_edge_events
        [(0, [0, 0, 0, 0, 0, 0, 1, 0]),
         (1, [0, 0, 0, 0, 0, 0, 1, 0]),
         (2, [0, 0, 0, 0, 0, 0, 0, 0])] (by decide) .bd 1 (by decide)
    rw [h]
    decide
  · have h := button_rising_edge_events
        [(0, [0, 0, 0, 0, 0, 0, 1, 0]),
         (1, [0, 0, 0, 0, 0, 0, 1, 0]),
         (2, [0, 0, 0, 0, 0, 0, 0, 0])] (by decide) .bd 2 (by decide)
    rw [h]
    decide

lemma check_stick_repeat_eq (now : Nat) (st : HandlerState) (d : InputEvent)
    (h : st.repeatDirection = some d) :
    check_stick_repeat now st =
      if now - st.repeatStartTime < 400 then (none, st)
      else if 150 ≤ now - st.lastRepeatTime then
        (some d, { st with lastRepeatTime := now })
      else (none, st) := by
  simp [check_stick_repeat, h, STICK_REPEAT_DELAY, STICK_REPEAT_RATE]

lemma run_checks_none (t0 : Nat) (st : HandlerState)
    (h : st.repeatDirection = none) :
    ∀ m : Nat, run_checks t0 st m = ([], st) := by
  intro m
  induction m with
  | zero => rfl
  | succ m ih => simp [run_checks, ih, check_stick_repeat, h]

lemma run_checks_spec (d : InputEvent) (t0 : Nat) (st : HandlerState)
    (hdir : st.repeatDirection = some d) (hstart : st.repeatStartTime = t0)
    (hlast : st.lastRepeatTime = t0) : ∀ n : Nat,
    (run_checks t0 st n).1
      = (List.range (if n < 400 then 0 else (n - 400) / 150 + 1)).map
          (fun k => (t0 + 400 + 150 * k, d)) ∧
    (run_checks t0 st n).2.repeatDirection = some d ∧
    (run_checks t0 st n).2.repeatStartTime = t0 ∧
    (run_checks t0 st n).2.lastRepeatTime
      = (if n < 400 then t0 else t0 + 400 + 150 * ((n - 400) / 150)) := by
  intro n
  induction n with
  | zero =>
      simp [run_checks, hdir, hstart, hlast]
  | succ n ih =>
      obtain ⟨hev, hdir', hstart', hlast'⟩ := ih
      simp only [run_checks]
      rw [check_stick_repeat_eq _ _ d hdir', hstart']
      by_cases hA : n + 1 < 400
      · have hA' : n < 400 := by omega
        rw [if_pos (by omega : t0 + (n + 1) - t0 < 400)]
        refine ⟨?_, hdir', hstart', ?_⟩
        · simp only [hev, if_pos hA, if_pos hA']
          simp
        · rw [hlast', if_pos hA, if_pos hA']
      · rw [if_neg (by omega : ¬ t0 + (n + 1) - t0 < 400)]
        by_cases hB : n < 400
        · have hb400 : n + 1 = 400 := by omega
          rw [if_pos hB] at hlast'
          rw [hlast', if_pos (by omega : 150 ≤ t0 + (n + 1) - t0)]
          refine ⟨?_, by simp [hdir'], by simp [hstart'], ?_⟩
          · have h1 : (n + 1 - 400) / 150 + 1 = 1 := by omega
            rw [hev, if_pos hB, if_neg (by omega : ¬ n + 1 < 400), h1]
            simp [List.range_succ]
            omega
          · rw [if_neg (by omega : ¬ n + 1 < 400)]
            simp
            omega
        · rw [if_neg hB] at hlast'
          rw [hlast']
          by_cases hC : 150 ≤ t0 + (n + 1) - (t0 + 400 + 150 * ((n - 400) / 150))
          · rw [if_pos hC]
            refine ⟨?_, by simp [hdir'], by simp [hstart'], ?_⟩
            · have hq : (n + 1 - 400) / 150 = (n - 400) / 150 + 1 := by omega
              rw [hev, if_neg hB, if_neg (by omega : ¬ n + 1 < 400), hq]
              simp [List.range_succ]
              omega
            · rw [if_neg (by omega : ¬ n + 1 < 400)]
              simp
              omega
          · rw [if_neg hC]
            refine ⟨?_, hdir', hstart', ?_⟩
            · have hq : (n + 1 - 400) / 150 = (n - 400) / 150 := by omega
              rw [hev, if_neg hB, if_neg (by omega : ¬ n + 1 < 400), hq]
              simp
            · rw [hlast', if_neg (by omega : ¬ n + 1 < 400)]
              have hq : (n + 1 - 400) / 150 = (n - 400) / 150 := by omega
              rw [hq]

lemma countP_range_unique (q : Nat → Bool) (k : Nat)
    (h : ∀ m, q m = true ↔ m = k) : ∀ K : Nat,
    (List.range K).countP q = if k < K then 1 else 0 := by
  intro K
  induction K with
  | zero => simp
  | succ K ih =>
      rw [List.range_succ, List.countP_append, ih]
      by_cases hK : q K = true
      · have hkK : K = k := (h K).mp hK
        subst hkK
        simp [hK]
      · have hkK : ¬ K = k := fun he => hK ((h K).mpr he)
        by_cases hlt : k < K
        · simp [hK, hlt, (by omega : k < K + 1)]
        · simp [hK, hlt]
          rw [if_neg (by omega : ¬ k < K + 1)]

lemma process_thumbstick_newdir (x y now : Nat) (st : HandlerState)
    (d : InputEvent) (hd : stickDirection x y = some d)
    (hch : stickDirection x y ≠ st.repeatDirection) :
    (process_thumbstick x y now st).2.repeatDirection = some d ∧
    (process_thumbstick x y now st).2.repeatStartTime = now ∧
    (process_thumbstick x y now st).2.lastRepeatTime = now := by
  simp only [process_thumbstick]
  rw [if_pos hch, hd]
  exact ⟨rfl, rfl, rfl⟩

lemma process_thumbstick_center_cancels (now : Nat) (st : HandlerState) :
    (process_thumbstick STICK_CENTER STICK_CENTER now st).2.repeatDirection
      = none := by
  have h : stickDirection STICK_CENTER STICK_CENTER = none := by decide
  simp only [process_thumbstick, h]
  by_cases hc : (none : Option InputEvent) ≠ st.repeatDirection
  · rw [if_pos hc]
  · rw [if_neg hc]
    simpa using (not_ne_iff.mp hc).symm

/-- C3: after a new stick direction is latched at time t0, per-millisecond
repeat checks over any duration T emit exactly one repeat event of that
direction inside each repeat window [t0+delay+rate*k, t0+delay+rate*(k+1))
that fits in T, every emitted repeat is that direction, and returning the
stick to center cancels repeating (no further checks ever emit). -/
theorem stick_repeat_rate (x y t0 T k : Nat) (st : HandlerState) (d : InputEvent)
    (hd : stickDirection x y = some d)
    (hch : stickDirection x y ≠ st.repeatDirection)
    (hwin : STICK_REPEAT_DELAY + STICK_REPEAT_RATE * k + STICK_REPEAT_RATE ≤ T) :
    ((run_checks t0 (process_thumbstick x y t0 st).2 T).1.countP
        (fun p =>
          decide (t0 + STICK_REPEAT_DELAY + STICK_REPEAT_RATE * k ≤ p.1) &&
          decide (p.1 < t0 + STICK_REPEAT_DELAY + STICK_REPEAT_RATE * (k + 1)))
      = 1) ∧
    (∀ p ∈ (run_checks t0 (process_thumbstick x y t0 st).2 T).1, p.2 = d) ∧
    (∀ tc m : Nat,
        (run_checks tc
          (process_thumbstick STICK_CENTER STICK_CENTER tc
            (run_checks t0 (process_thumbstick x y t0 st).2 T).2).2 m).1 = []) := by
  obtain ⟨hrd, hrs, hrl⟩ := process_thumbstick_newdir x y t0 st d hd hch
  obtain ⟨hev, hdir2, hstart2, hlast2⟩ :=
    run_checks_spec d t0 (process_thumbstick x y t0 st).2 hrd hrs hrl T
  simp only [STICK_REPEAT_DELAY, STICK_REPEAT_RATE] at hwin ⊢
  refine ⟨?_, ?_, ?_⟩
  · rw [hev, List.countP_map]
    have hq : ∀ m : Nat,
        ((fun p : Nat × InputEvent =>
            decide (t0 + 400 + 150 * k ≤ p.1) &&
            decide (p.1 < t0 + 400 + 150 * (k + 1))) ∘
          (fun k' => (t0 + 400 + 150 * k', d))) m = true ↔ m = k := by
      intro m
      simp only [Function.comp_apply, Bool.and_eq_true, decide_eq_true_eq]
      omega
    rw [countP_range_unique _ k hq, if_neg (by omega : ¬ T < 400),
        if_pos (by omega : k < (T - 400) / 150 + 1)]
  · intro p hp
    rw [hev] at hp
    obtain ⟨a, _, rfl⟩ := List.mem_map.mp hp
    rfl
  · intro tc m
    have hcancel := process_thumbstick_center_cancels tc
      (run_checks t0 (process_thumbstick x y t0 st).2 T).2
    rw [run_checks_none _ _ hcancel m]

/-- Witness for C3: stick held down from time 0, checks through 700 ms: the
second repeat window [550, 700) contains exactly one repeat, and every
repeat is stick-down. -/
theorem stick_repeat_rate_witness :
    ((run_checks 0 (process_thumbstick 128 200 0 initHandlerState).2 700).1.countP
        (fun p =>
          decide (0 + STICK_REPEAT_DELAY + STICK_REPEAT_RATE * 1 ≤ p.1) &&
          decide (p.1 < 0 + STICK_REPEAT_DELAY + STICK_REPEAT_RATE * (1 + 1)))
      = 1) ∧
    (∀ p ∈ (run_checks 0 (process_thumbstick 128 200 0 initHandlerState).2 700).1,
        p.2 = InputEvent.stickDown) :=
  ⟨(stick_repeat_rate 128 200 0 700 1 initHandlerState .stickDown
      (by decide) (by decide) (by decide)).1,
   (stick_repeat_rate 128 200 0 700 1 initHandlerState .stickDown
      (by decide) (by decide) (by decide)).2.1⟩
